import Mathlib

/-!
Verification of the PxBox broker core.

This file gives a shallow embedding, in Lean 4, of the parts of the PxBox
data-entry broker that its specification talks about, and proves (or
refutes) the specified properties against that embedding.

Embedded components and their sources:
- request status machine and typed queries (internal/db/queries.go),
- the request service: create, claim, postResponse, cancel
  (the service layer in internal/api plus the model package),
- the flow service: resume, tick, cancel (internal/service/flow.go),
- the background job handlers (internal/jobs/jobs.go),
- the JSON schema compiler with its reference-URL allowlist
  (the schema package),
- the event streams layer: publish, replay, resume (internal/pubsub and
  the ws hub).

External collaborators (PostgreSQL, Redis, the jsonschema library,
url.Parse host extraction) are represented by explicit state values or by
function parameters, so that every embedded operation is a pure, executable
Lean function. Go maps of JSON values are embedded as ordered field lists;
the Go database rows become Lean structures with exactly the columns the
claims need.
-/

namespace PxBox

/-- Request status, model.Status: PENDING, CLAIMED, ANSWERED, CANCELLED,
EXPIRED. -/
inductive Status where
  | pending
  | claimed
  | answered
  | cancelled
  | expired
deriving Repr, DecidableEq

/-- Flow status, model.FlowStatus. -/
inductive FlowStatus where
  | running
  | suspended
  | waitingInput
  | completed
  | cancelled
  | failed
deriving Repr, DecidableEq

/-- Schema kind, model.SchemaKind: jsonschema, jsonexample, ref. -/
inductive SchemaKind where
  | jsonschema
  | jsonexample
  | ref
deriving Repr, DecidableEq

/-- The terminal request statuses: ANSWERED, CANCELLED, EXPIRED. -/
def Status.isTerminal : Status → Bool
  | .answered => true
  | .cancelled => true
  | .expired => true
  | _ => false

/-- The terminal flow statuses: COMPLETED, CANCELLED, FAILED. -/
def FlowStatus.isTerminal : FlowStatus → Bool
  | .completed => true
  | .cancelled => true
  | .failed => true
  | _ => false

/-! JSON documents. Go passes schema documents around as
map[string]interface{} values. We embed a JSON document as a tree; an
object is an ordered list of key/value fields (Go map keys are unique, and
the embedding never builds duplicate keys). -/

mutual
inductive JsonVal where
  | str (s : String)
  | num (n : Int)
  | boolean (b : Bool)
  | null
  | arr (xs : JsonArr)
  | obj (fields : JsonObj)
deriving Repr, DecidableEq

inductive JsonArr where
  | nil
  | cons (head : JsonVal) (tail : JsonArr)
deriving Repr, DecidableEq

inductive JsonObj where
  | nil
  | cons (key : String) (val : JsonVal) (tail : JsonObj)
deriving Repr, DecidableEq
end

/-- Field lookup in a JSON object; embeds the Go map read v[k]. -/
def lookupField : JsonObj → String → Option JsonVal
  | .nil, _ => none
  | .cons k v r, key => if k == key then some v else lookupField r key

/-- Key presence in a JSON object; embeds the Go two-value map read
pattern. -/
def hasField (fs : JsonObj) (key : String) : Bool :=
  (lookupField fs key).isSome

/-- Field assignment in a JSON object; embeds the Go map write m[k] = v
(replace the existing key, or add it). -/
def setField : JsonObj → String → JsonVal → JsonObj
  | .nil, key, v => .cons key v .nil
  | .cons k0 v0 r, key, v =>
      if k0 == key then .cons k0 v r else .cons k0 v0 (setField r key v)

/-! Schema compiler (the schema package). The jsonschema library compile
step and the url.Parse host extraction are external; they enter the
embedding as the compileOk and host fields of CompilerCfg. -/

/-- Embeds Go strings.HasPrefix on the character sequences. -/
def strHasPrefix (s pre : String) : Bool := pre.data.isPrefixOf s.data

/-- Embeds Go strings.HasSuffix on the character sequences. -/
def strHasSuffix (s suf : String) : Bool := suf.data.isSuffixOf s.data

/-- Embeds Go strings.TrimSuffix on the character sequences. -/
def strTrimSuffix (s suf : String) : String :=
  if strHasSuffix s suf then ⟨s.data.take (s.data.length - suf.data.length)⟩ else s

/-- Embeds schema.matchesPattern: exact match, else trailing-wildcard
match via TrimSuffix and HasPrefix, else parse both strings as URLs and
compare hosts. The host parameter models url.Parse: some h is a
successful parse with Host h, none is a parse error. -/
def matchesPattern (host : String → Option String) (urlStr pat : String) : Bool :=
  if urlStr == pat then true
  else if strHasSuffix pat "*" then
    strHasPrefix urlStr (strTrimSuffix pat "*")
  else
    match host urlStr, host pat with
    | some h1, some h2 => h1 == h2
    | _, _ => false

/-- Embeds Compiler.isRefAllowed: an empty allowlist allows all; otherwise
some pattern must match. -/
def isRefAllowed (host : String → Option String) (allowlist : List String)
    (refURL : String) : Bool :=
  if allowlist.isEmpty then true
  else allowlist.any (fun pat => matchesPattern host refURL pat)

/-! Compiler.validateRefs walks the whole document: in every object it
checks the string value of the "$ref" key against the allowlist, then
recurses into all field values; it recurses into array elements; it stops
at the first offending reference. -/

mutual
/-- Embeds Compiler.validateRefs on a JSON value; returns the first
disallowed reference URL, or none when every reference is allowed. -/
def validateRefs (allow : String → Bool) (v : JsonVal) : Option String :=
  match v with
  | .obj fs =>
      match lookupField fs "$ref" with
      | some (.str r) =>
          if allow r then validateRefsObj allow fs else some r
      | _ => validateRefsObj allow fs
  | .arr xs => validateRefsArr allow xs
  | _ => none
termination_by structural v

/-- validateRefs over the elements of a JSON array. -/
def validateRefsArr (allow : String → Bool) (xs : JsonArr) : Option String :=
  match xs with
  | .nil => none
  | .cons v r =>
      match validateRefs allow v with
      | some e => some e
      | none => validateRefsArr allow r
termination_by structural xs

/-- validateRefs over the field values of a JSON object. -/
def validateRefsObj (allow : String → Bool) (fs : JsonObj) : Option String :=
  match fs with
  | .nil => none
  | .cons _ v r =>
      match validateRefs allow v with
      | some e => some e
      | none => validateRefsObj allow r
termination_by structural fs
end

mutual
/-- Specification-side view: every string value of a "$ref" key occurring
anywhere in the document (top level or nested in objects and arrays). -/
def refsOf (v : JsonVal) : List String :=
  match v with
  | .obj fs =>
      (match lookupField fs "$ref" with
       | some (.str r) => [r]
       | _ => []) ++ refsOfObj fs
  | .arr xs => refsOfArr xs
  | _ => []
termination_by structural v

/-- refsOf over the elements of a JSON array. -/
def refsOfArr (xs : JsonArr) : List String :=
  match xs with
  | .nil => []
  | .cons v r => refsOf v ++ refsOfArr r
termination_by structural xs

/-- refsOf over the field values of a JSON object. -/
def refsOfObj (fs : JsonObj) : List String :=
  match fs with
  | .nil => []
  | .cons _ v r => refsOf v ++ refsOfObj r
termination_by structural fs
end

/-- Configuration of the schema compiler: the url.Parse host model, the
external jsonschema compile step (a pure function of the document, as the
specification notes), and the configured reference allowlist. -/
structure CompilerCfg where
  host : String → Option String
  compileOk : JsonVal → Bool
  refAllowlist : List String

/-- Result of Compiler.Prepare. -/
inductive PrepareResult where
  | ok
  | refNotAllowed (ref : String)
  | compileFailed
deriving Repr, DecidableEq

/-- Every reference of the document is allowed by the allowlist of cfg. -/
def allRefsAllowed (cfg : CompilerCfg) (v : JsonVal) : Bool :=
  (refsOf v).all (fun r => isRefAllowed cfg.host cfg.refAllowlist r)

/-- Embeds Compiler.Prepare. The Go cache is keyed by the JSON
serialization of the schema, a pure function of the document, so the
embedded cache holds the documents themselves. A cache hit returns ok at
once; otherwise, when the allowlist is non-empty, validateRefs runs first;
then the external compile step runs and a success is cached. -/
def Prepare (cfg : CompilerCfg) (cache : List JsonVal) (schema : JsonVal) :
    PrepareResult × List JsonVal :=
  if schema ∈ cache then (.ok, cache)
  else
    let compileStep : PrepareResult × List JsonVal :=
      if cfg.compileOk schema then (.ok, schema :: cache) else (.compileFailed, cache)
    if 0 < cfg.refAllowlist.length then
      match validateRefs (isRefAllowed cfg.host cfg.refAllowlist) schema with
      | some r => (.refNotAllowed r, cache)
      | none => compileStep
    else compileStep

/-- Cache well-formedness: Prepare only caches documents it has checked,
so every cached document has all references allowed. -/
def CacheWF (cfg : CompilerCfg) (cache : List JsonVal) : Prop :=
  ∀ s ∈ cache, allRefsAllowed cfg s = true

mutual
/-- validateRefs succeeds exactly when every reference in the value is
allowed. -/
theorem validateRefs_none_iff (allow : String → Bool) (v : JsonVal) :
    validateRefs allow v = none ↔ (refsOf v).all allow = true := by
  cases v with
  | obj fs =>
      have ih := validateRefsObj_none_iff allow fs
      cases h : lookupField fs "$ref" with
      | none => simp only [validateRefs, refsOf, h]; simpa using ih
      | some w =>
          cases w with
          | str r =>
              by_cases hr : allow r = true
              · simp only [validateRefs, refsOf, h, hr, if_true]
                simpa [hr] using ih
              · simp only [validateRefs, refsOf, h]
                simp [hr, Bool.eq_false_iff.mpr hr]
          | num n => simp only [validateRefs, refsOf, h]; simpa using ih
          | boolean b => simp only [validateRefs, refsOf, h]; simpa using ih
          | null => simp only [validateRefs, refsOf, h]; simpa using ih
          | arr xs => simp only [validateRefs, refsOf, h]; simpa using ih
          | obj fs2 => simp only [validateRefs, refsOf, h]; simpa using ih
  | arr xs =>
      have ih := validateRefsArr_none_iff allow xs
      simp only [validateRefs, refsOf]; exact ih
  | str s => simp [validateRefs, refsOf]
  | num n => simp [validateRefs, refsOf]
  | boolean b => simp [validateRefs, refsOf]
  | null => simp [validateRefs, refsOf]
termination_by structural v

/-- validateRefsArr succeeds exactly when every reference below the array
is allowed. -/
theorem validateRefsArr_none_iff (allow : String → Bool) (xs : JsonArr) :
    validateRefsArr allow xs = none ↔ (refsOfArr xs).all allow = true := by
  cases xs with
  | nil => simp [validateRefsArr, refsOfArr]
  | cons v r =>
      have ihv := validateRefs_none_iff allow v
      have ihr := validateRefsArr_none_iff allow r
      simp only [validateRefsArr, refsOfArr]
      cases hv : validateRefs allow v with
      | some e =>
          simp only [hv] at ihv
          simp [List.all_append, ← ihv]
      | none =>
          simp only [hv, true_iff] at ihv
          simp [List.all_append, ihv, ihr]
termination_by structural xs

/-- validateRefsObj succeeds exactly when every reference below the object
fields is allowed. -/
theorem validateRefsObj_none_iff (allow : String → Bool) (fs : JsonObj) :
    validateRefsObj allow fs = none ↔ (refsOfObj fs).all allow = true := by
  cases fs with
  | nil => simp [validateRefsObj, refsOfObj]
  | cons k v r =>
      have ihv := validateRefs_none_iff allow v
      have ihr := validateRefsObj_none_iff allow r
      simp only [validateRefsObj, refsOfObj]
      cases hv : validateRefs allow v with
      | some e =>
          simp only [hv] at ihv
          simp [List.all_append, ← ihv]
      | none =>
          simp only [hv, true_iff] at ihv
          simp [List.all_append, ihv, ihr]
termination_by structural fs
end

mutual
/-- The reference reported by validateRefs is indeed a disallowed one. -/
theorem validateRefs_some_not_allowed (allow : String → Bool) (v : JsonVal)
    (r : String) : validateRefs allow v = some r → allow r = false := by
  cases v with
  | obj fs =>
      have ih := validateRefsObj_some_not_allowed allow fs r
      cases h : lookupField fs "$ref" with
      | none => simp only [validateRefs, h]; exact ih
      | some w =>
          cases w with
          | str r0 =>
              by_cases hr : allow r0 = true
              · simp only [validateRefs, h, hr, if_true]; exact ih
              · simp only [validateRefs, h, Bool.eq_false_iff.mpr hr]
                intro he
                simp only [Bool.false_eq_true, if_false, Option.some.injEq] at he
                subst he
                exact Bool.eq_false_iff.mpr hr
          | num n => simp only [validateRefs, h]; exact ih
          | boolean b => simp only [validateRefs, h]; exact ih
          | null => simp only [validateRefs, h]; exact ih
          | arr xs => simp only [validateRefs, h]; exact ih
          | obj fs2 => simp only [validateRefs, h]; exact ih
  | arr xs =>
      have ih := validateRefsArr_some_not_allowed allow xs r
      simp only [validateRefs]; exact ih
  | str s => simp [validateRefs]
  | num n => simp [validateRefs]
  | boolean b => simp [validateRefs]
  | null => simp [validateRefs]
termination_by structural v

/-- Array version of validateRefs_some_not_allowed. -/
theorem validateRefsArr_some_not_allowed (allow : String → Bool)
    (xs : JsonArr) (r : String) :
    validateRefsArr allow xs = some r → allow r = false := by
  cases xs with
  | nil => simp [validateRefsArr]
  | cons v rest =>
      have ihv := validateRefs_some_not_allowed allow v r
      have ihr := validateRefsArr_some_not_allowed allow rest r
      simp only [validateRefsArr]
      cases hv : validateRefs allow v with
      | some e =>
          intro he
          exact ihv (hv.trans (by simpa using he))
      | none => exact ihr
termination_by structural xs

/-- Object version of validateRefs_some_not_allowed. -/
theorem validateRefsObj_some_not_allowed (allow : String → Bool)
    (fs : JsonObj) (r : String) :
    validateRefsObj allow fs = some r → allow r = false := by
  cases fs with
  | nil => simp [validateRefsObj]
  | cons k v rest =>
      have ihv := validateRefs_some_not_allowed allow v r
      have ihr := validateRefsObj_some_not_allowed allow rest r
      simp only [validateRefsObj]
      cases hv : validateRefs allow v with
      | some e =>
          intro he
          exact ihv (hv.trans (by simpa using he))
      | none => exact ihr
termination_by structural fs
end

/-- Claim C7. When the reference-URL allowlist is non-empty, prepare
succeeds only if every reference URL discovered anywhere in the document
(nested objects and arrays included) matches at least one allowlist
pattern under matchesPattern (exact string, trailing-wildcard prefix, or
same-host comparison); when some reference matches no pattern, prepare
fails with a ref-not-allowed error naming a disallowed reference. When the
allowlist is empty, prepare never fails for allowlist reasons. The cache
hypothesis says the cache only holds previously checked documents, which
is how Prepare populates it. -/
theorem claim_C7_prepare_allowlist (cfg : CompilerCfg) (cache : List JsonVal)
    (schema : JsonVal) (hwf : CacheWF cfg cache) :
    (0 < cfg.refAllowlist.length →
        ((Prepare cfg cache schema).1 = .ok → allRefsAllowed cfg schema = true)
      ∧ (allRefsAllowed cfg schema = false →
          ∃ r, (Prepare cfg cache schema).1 = .refNotAllowed r
            ∧ isRefAllowed cfg.host cfg.refAllowlist r = false))
    ∧ (cfg.refAllowlist = [] →
        ∀ r, (Prepare cfg cache schema).1 ≠ .refNotAllowed r) := by
  by_cases hc : schema ∈ cache
  · have hok : allRefsAllowed cfg schema = true := hwf schema hc
    constructor
    · intro _
      refine ⟨fun _ => hok, fun hbad => ?_⟩
      rw [hok] at hbad; cases hbad
    · intro _ r
      simp [Prepare, hc]
  · constructor
    · intro hlen
      unfold Prepare
      simp only [hc, if_false, if_pos hlen]
      cases hv : validateRefs (isRefAllowed cfg.host cfg.refAllowlist) schema with
      | some r =>
          refine ⟨fun hok => ?_, fun _ => ⟨r, rfl, ?_⟩⟩
          · by_cases hco : cfg.compileOk schema = true <;> simp [hco] at hok
          · exact validateRefs_some_not_allowed _ _ _ hv
      | none =>
          have hall : allRefsAllowed cfg schema = true := by
            have := (validateRefs_none_iff
              (isRefAllowed cfg.host cfg.refAllowlist) schema).mp hv
            simpa [allRefsAllowed] using this
          refine ⟨fun _ => hall, fun hbad => ?_⟩
          rw [hall] at hbad; cases hbad
    · intro hnil r
      unfold Prepare
      simp only [hc, if_false, hnil]
      by_cases hco : cfg.compileOk schema = true <;> simp [hco]

/-- Concrete compiler configuration used by witnesses: host extraction
that always fails to parse, an external compile step that always succeeds,
and a one-pattern allowlist. -/
def cfgW : CompilerCfg :=
  { host := fun _ => none
    compileOk := fun _ => true
    refAllowlist := ["https://schemas.example.com/*"] }

/-- Concrete schema document used by witnesses: an object with a nested
reference. -/
def schemaW : JsonVal :=
  .obj (.cons "$ref" (.str "https://schemas.example.com/person.json")
    (.cons "items" (.arr (.cons (.obj (.cons "$ref"
      (.str "https://schemas.example.com/address.json") .nil)) .nil)) .nil))

/-- Witness for claim C7 at a concrete configuration, cache and schema. -/
theorem claim_C7_prepare_allowlist_witness :
    allRefsAllowed cfgW schemaW = true ∧
    (∀ r, (Prepare { cfgW with refAllowlist := [] } [] schemaW).1
      ≠ PrepareResult.refNotAllowed r) := by
  have h1 := claim_C7_prepare_allowlist cfgW [] schemaW (by
    intro s hs; cases hs)
  have h2 := claim_C7_prepare_allowlist { cfgW with refAllowlist := [] } []
    schemaW (by intro s hs; cases hs)
  exact ⟨(h1.1 (by decide)).1 (by decide), h2.2 rfl⟩

/-! Database rows and the typed queries of internal/db/queries.go. The
rows keep exactly the columns the verified operations touch. -/

/-- A row of the requests table. -/
structure ReqRow where
  id : String
  createdBy : String
  entityId : String
  status : Status
  schemaKind : SchemaKind
  schemaPayload : JsonVal
  flowId : Option String
deriving Repr, DecidableEq

/-- A row of the responses table. -/
structure RespRow where
  id : String
  requestId : String
  answeredBy : String
  payload : JsonVal
deriving Repr, DecidableEq

/-- The relational state the request service reads and writes. -/
structure Db where
  entities : List String
  requests : List ReqRow
  responses : List RespRow
deriving Repr, DecidableEq

/-- Embeds Queries.GetRequestByID (none models the not-found error). -/
def getRequestByID (db : Db) (id : String) : Option ReqRow :=
  db.requests.find? (fun r => r.id == id)

/-- Embeds Queries.GetEntityByID reduced to existence of the row. -/
def entityExists (db : Db) (id : String) : Bool :=
  db.entities.contains id

/-- Embeds Queries.UpdateRequestStatus: an unconditional update of the
status column of the row with the given id. -/
def updateRequestStatus (db : Db) (id : String) (st : Status) : Db :=
  { db with requests := (db.requests.map
      (fun r => if r.id == id then { r with status := st } else r)) }

/-- The WHERE clause of the conditional update of Queries.ClaimRequest:
the row with the given id whose status is PENDING. -/
def pendingWithId (id : String) (r : ReqRow) : Bool :=
  r.id == id && r.status == .pending

/-- Rows affected by the conditional update of Queries.ClaimRequest. -/
def claimAffected (db : Db) (id : String) : Nat :=
  (db.requests.filter (pendingWithId id)).length

/-- The state after the conditional update of Queries.ClaimRequest: the
matching PENDING row becomes CLAIMED, everything else is untouched. -/
def claimUpdate (db : Db) (id : String) : Db :=
  { db with requests := (db.requests.map
      (fun r => if pendingWithId id r then { r with status := .claimed } else r)) }

/-- Embeds Queries.ClaimRequest: one atomic conditional update; when it
affects zero rows the call fails (false, surfaced as the no-rows error
and then as claim-conflict) and the state is unchanged; otherwise it
succeeds (true). -/
def ClaimRequest (db : Db) (id : String) : Db × Bool :=
  if claimAffected db id = 0 then (db, false) else (claimUpdate db id, true)

/-- Observable side effects of the service layer: event publications on
the bus and flow resumptions. -/
inductive Action where
  | publishRequest (requestId : String) (eventType : String)
  | publishEntity (entityId : String) (eventType : String)
  | publishRequestor (clientId : String) (eventType : String)
  | resumeFlowWith (flowId : String) (event : String)
deriving Repr, DecidableEq

/-- Service-level errors relevant to the verified paths. -/
inductive SvcErr where
  | claimConflict
  | requestNotFound
  | entityNotFound
  | schemaViolation
  | invalidFiles
deriving Repr, DecidableEq

/-- Embeds RequestService.ClaimRequest: the conditional claim, then the
request.claimed publications (the re-read of the row ignores its error,
so a missing row publishes with an empty entity id, as in the source). -/
def ServiceClaimRequest (db : Db) (id : String) :
    Db × List Action × Option SvcErr :=
  let step := ClaimRequest db id
  if step.2 then
    let entityId := match getRequestByID step.1 id with
      | some r => r.entityId
      | none => ""
    (step.1, [.publishRequest id "request.claimed",
              .publishEntity entityId "request.claimed"], none)
  else (step.1, [], some .claimConflict)

/-- Sequential runs of n claim calls on the same request. Because the
claim is one atomic conditional SQL statement, every interleaving of
concurrent claimers is equivalent to some sequential order of the
statements, which this function models; it returns the final state and
the number of successful claims. -/
def runClaims (id : String) : Nat → Db → Db × Nat
  | 0, db => (db, 0)
  | n + 1, db =>
      let step := ClaimRequest db id
      let rest := runClaims id n step.1
      (rest.1, (if step.2 then 1 else 0) + rest.2)

/-- Embeds RequestService.PostResponse. The external pieces are
parameters: validate is the schema compiler validation on (kind, schema,
payload); normalizeFiles is storage.NormalizeFiles; freshRespId is the
generated ULID. Events are recorded as actions. The returned Db is the
state after the call (unchanged when an error is returned before the
writes). -/
def PostResponse (validate : SchemaKind → JsonVal → JsonVal → Bool)
    (normalizeFiles : List JsonObj → Option (List JsonObj))
    (freshRespId : String) (db : Db) (requestID answeredBy : String)
    (payload : JsonVal) (files : List JsonObj) :
    Db × List Action × Except SvcErr RespRow :=
  match getRequestByID db requestID with
  | none => (db, [], .error .requestNotFound)
  | some req =>
    let answeredBy1 := if answeredBy == "" then req.entityId else answeredBy
    if !(entityExists db answeredBy1) then (db, [], .error .entityNotFound)
    else if (req.schemaKind == .jsonschema || req.schemaKind == .ref)
        && !(validate req.schemaKind req.schemaPayload payload) then
      (db, [], .error .schemaViolation)
    else
      let filesNorm : Option (List JsonObj) :=
        if files.isEmpty then some [] else normalizeFiles files
      match filesNorm with
      | none => (db, [], .error .invalidFiles)
      | some _ =>
        let resp : RespRow := { id := freshRespId, requestId := requestID,
                                answeredBy := answeredBy1, payload := payload }
        let db1 := { db with responses := db.responses ++ [resp] }
        let db2 := updateRequestStatus db1 requestID .answered
        (db2, [.publishRequest requestID "request.answered",
               .publishRequestor req.createdBy "request.answered"], .ok resp)

/-- Embeds RequestService.CancelRequest: an unconditional status update to
CANCELLED, then the request.cancelled publications (the re-read ignores
its error, publishing with an empty entity id for a missing row, as in
the source). It never resumes a flow. -/
def ServiceCancelRequest (db : Db) (id : String) :
    Db × List Action × Option SvcErr :=
  let db1 := updateRequestStatus db id .cancelled
  let entityId := match getRequestByID db1 id with
    | some r => r.entityId
    | none => ""
  (db1, [.publishRequest id "request.cancelled",
         .publishEntity entityId "request.cancelled"], none)

/-- Embeds JobServer.handleAutoCancel: load the row, exit quietly unless
it is still PENDING, then update to CANCELLED and publish the
request.cancelled events. It never resumes a flow. -/
def handleAutoCancel (db : Db) (id : String) :
    Db × List Action × Option SvcErr :=
  match getRequestByID db id with
  | none => (db, [], some .requestNotFound)
  | some req =>
    if req.status != .pending then (db, [], none)
    else
      let db1 := updateRequestStatus db id .cancelled
      (db1, [.publishRequest id "request.cancelled",
             .publishEntity req.entityId "request.cancelled"], none)

/-- Embeds detectSchemaKind: a top-level "$ref" key classifies the
document as ref; otherwise a top-level "example" key classifies it as
jsonexample; otherwise it is jsonschema. -/
def detectSchemaKind (schema : JsonObj) : SchemaKind :=
  if hasField schema "$ref" then .ref
  else if hasField schema "example" then .jsonexample
  else .jsonschema

/-- Embeds RequestService.CreateRequest restricted to the verified
behaviour: entity resolution (resolvedEntity models
EntityService.ResolveEntity), schema-kind detection, the Prepare gate for
jsonschema and ref kinds, and insertion of the PENDING row. prepGate
models the Prepare call of the schema compiler on the document. -/
def CreateRequest (prepGate : JsonVal → PrepareResult) (freshId : String)
    (db : Db) (resolvedEntity : Option String) (createdBy : String)
    (schema : JsonObj) : Db × Except SvcErr ReqRow :=
  match resolvedEntity with
  | none => (db, .error .entityNotFound)
  | some eid =>
    let kind := detectSchemaKind schema
    if (kind == .jsonschema || kind == .ref)
        && !(prepGate (.obj schema) == .ok) then
      (db, .error .schemaViolation)
    else
      let row : ReqRow := { id := freshId, createdBy := createdBy,
                            entityId := eid, status := .pending,
                            schemaKind := kind, schemaPayload := .obj schema,
                            flowId := none }
      ({ db with requests := db.requests ++ [row] }, .ok row)

/-- The status of the request row with the given id, as a reader sees
it. -/
def statusOf (db : Db) (id : String) : Option Status :=
  (getRequestByID db id).map (fun r => r.status)

/-- Primary-key discipline of the requests table: ids are pairwise
distinct. -/
def RequestsUnique (db : Db) : Prop :=
  db.requests.Pairwise (fun a b => a.id ≠ b.id)

/-- No row of the given id is still PENDING. -/
def noPending (db : Db) (id : String) : Prop :=
  ∀ r ∈ db.requests, r.id = id → r.status ≠ .pending

theorem pendingWithId_iff (id : String) (r : ReqRow) :
    pendingWithId id r = true ↔ r.id = id ∧ r.status = .pending := by
  simp [pendingWithId]

theorem claimAffected_zero_iff (db : Db) (id : String) :
    claimAffected db id = 0 ↔ noPending db id := by
  unfold claimAffected noPending
  rw [List.length_eq_zero, List.filter_eq_nil_iff]
  constructor
  · intro h r hr hid hst
    exact h r hr (by simp [pendingWithId, hid, hst])
  · intro h r hr
    rw [pendingWithId_iff]
    rintro ⟨hid, hst⟩
    exact h r hr hid hst

theorem mem_unique_id {l : List ReqRow}
    (hu : l.Pairwise (fun a b => a.id ≠ b.id)) {r1 r2 : ReqRow}
    (h1 : r1 ∈ l) (h2 : r2 ∈ l) (hid : r1.id = r2.id) : r1 = r2 := by
  induction l with
  | nil => cases h1
  | cons a t ih =>
      rcases List.pairwise_cons.mp hu with ⟨hat, ht⟩
      rcases List.mem_cons.mp h1 with rfl | h1t
      · rcases List.mem_cons.mp h2 with rfl | h2t
        · rfl
        · exact absurd hid (hat r2 h2t)
      · rcases List.mem_cons.mp h2 with rfl | h2t
        · exact absurd hid.symm (hat r1 h1t)
        · exact ih ht h1t h2t

theorem find?_id_eq_some_of_unique {db : Db} {id : String} {r : ReqRow}
    (hu : RequestsUnique db) (hr : r ∈ db.requests) (hid : r.id = id) :
    db.requests.find? (fun q => q.id == id) = some r := by
  cases hf : db.requests.find? (fun q => q.id == id) with
  | none =>
      have hnone := List.find?_eq_none.mp hf r hr
      exact absurd (show ((fun q => q.id == id) r) = true by simp [hid]) hnone
  | some r0 =>
      have h0mem := List.mem_of_find?_eq_some hf
      have h0id : r0.id = id := by simpa using List.find?_some hf
      rw [mem_unique_id hu h0mem hr (h0id.trans hid.symm)]

theorem find?_map_id_comm (id : String) (g : ReqRow → ReqRow)
    (hg : ∀ r, (g r).id = r.id) (l : List ReqRow) :
    (l.map g).find? (fun r => r.id == id) =
      (l.find? (fun r => r.id == id)).map g := by
  induction l with
  | nil => rfl
  | cons a t ih =>
      by_cases ha : a.id = id
      · simp [List.find?, hg, ha]
      · simp only [List.map_cons, List.find?]
        rw [show (((g a).id == id) = false) by simp [hg, ha],
            show ((a.id == id) = false) by simp [ha]]
        exact ih

theorem claimRequest_succ_iff (db : Db) (id : String) :
    (ClaimRequest db id).2 = true ↔
      ∃ r ∈ db.requests, r.id = id ∧ r.status = .pending := by
  unfold ClaimRequest
  by_cases hz : claimAffected db id = 0
  · rw [if_pos hz]
    have hnp := (claimAffected_zero_iff db id).mp hz
    simp only [Bool.false_eq_true, false_iff]
    rintro ⟨r, hr, hid, hst⟩
    exact hnp r hr hid hst
  · rw [if_neg hz]
    simp only [true_iff]
    have hlen : 0 < (db.requests.filter (pendingWithId id)).length :=
      Nat.pos_of_ne_zero hz
    rcases List.exists_mem_of_length_pos hlen with ⟨r, hr⟩
    rcases List.mem_filter.mp hr with ⟨hmem, hcond⟩
    rcases (pendingWithId_iff id r).mp hcond with ⟨hid, hst⟩
    exact ⟨r, hmem, hid, hst⟩

theorem claimRequest_fail_unchanged (db : Db) (id : String)
    (h : (ClaimRequest db id).2 = false) : (ClaimRequest db id).1 = db := by
  unfold ClaimRequest at h ⊢
  by_cases hz : claimAffected db id = 0
  · rw [if_pos hz]
  · rw [if_neg hz] at h; cases h

theorem claimRequest_fail_of_noPending (db : Db) (id : String)
    (h : noPending db id) : ClaimRequest db id = (db, false) := by
  have hz := (claimAffected_zero_iff db id).mpr h
  simp [ClaimRequest, hz]

theorem runClaims_zero_of_noPending (id : String) (n : Nat) (db : Db)
    (h : noPending db id) : runClaims id n db = (db, 0) := by
  induction n with
  | zero => rfl
  | succ m ih =>
      simp [runClaims, claimRequest_fail_of_noPending db id h, ih]

theorem claimRequest_success_noPending (db : Db) (id : String)
    (h : (ClaimRequest db id).2 = true) :
    noPending (ClaimRequest db id).1 id := by
  unfold ClaimRequest at h ⊢
  by_cases hz : claimAffected db id = 0
  · rw [if_pos hz] at h; cases h
  · rw [if_neg hz]
    intro r hr hid
    simp only [claimUpdate] at hr
    rcases List.mem_map.mp hr with ⟨r0, _, heq⟩
    by_cases hc : pendingWithId id r0 = true
    · rw [if_pos hc] at heq
      rw [← heq]
      simp
    · rw [if_neg hc] at heq
      subst heq
      intro hst
      exact hc ((pendingWithId_iff id _).mpr ⟨hid, hst⟩)

theorem runClaims_le_one (id : String) (n : Nat) (db : Db) :
    (runClaims id n db).2 ≤ 1 := by
  induction n generalizing db with
  | zero => simp [runClaims]
  | succ m ih =>
      cases hs : (ClaimRequest db id).2 with
      | true =>
          have hnp := claimRequest_success_noPending db id hs
          simp only [runClaims, hs, if_true]
          rw [runClaims_zero_of_noPending id m _ hnp]
          simp
      | false =>
          simp only [runClaims, hs, Bool.false_eq_true, if_false]
          simpa using ih (ClaimRequest db id).1

/-- Claim C1. The claim operation is the conditional update PENDING to
CLAIMED of Queries.ClaimRequest, one atomic SQL statement: it succeeds
exactly when the row status is PENDING at the moment of the update, a
success leaves the row CLAIMED, a failure (zero rows affected, surfaced
as claim-conflict) leaves the row unchanged, and any sequence of claim
calls on the same request has at most one success. Because each claim is
a single atomic statement, an interleaving of N concurrent claimers is a
sequence of these updates, which runClaims models. -/
theorem claim_C1_atMostOneClaim (db : Db) (id : String)
    (hu : RequestsUnique db) :
    ((ClaimRequest db id).2 = true ↔ statusOf db id = some .pending)
  ∧ ((ClaimRequest db id).2 = true →
      statusOf (ClaimRequest db id).1 id = some .claimed)
  ∧ ((ClaimRequest db id).2 = false → (ClaimRequest db id).1 = db)
  ∧ (∀ n, (runClaims id n db).2 ≤ 1) := by
  refine ⟨?_, ?_, claimRequest_fail_unchanged db id,
    fun n => runClaims_le_one id n db⟩
  · rw [claimRequest_succ_iff]
    constructor
    · rintro ⟨r, hr, hid, hst⟩
      rw [statusOf, getRequestByID, find?_id_eq_some_of_unique hu hr hid]
      simp [hst]
    · intro hstat
      simp only [statusOf, getRequestByID, Option.map_eq_some'] at hstat
      rcases hstat with ⟨r, hf, hst⟩
      exact ⟨r, List.mem_of_find?_eq_some hf,
        by simpa using List.find?_some hf, hst⟩
  · intro hs
    rcases (claimRequest_succ_iff db id).mp hs with ⟨r, hr, hid, hst⟩
    have hres : (ClaimRequest db id).1 = claimUpdate db id := by
      unfold ClaimRequest at hs ⊢
      by_cases hz : claimAffected db id = 0
      · rw [if_pos hz] at hs; cases hs
      · rw [if_neg hz]
    have hg : ∀ q : ReqRow, ((fun q => if pendingWithId id q
        then { q with status := Status.claimed } else q) q).id = q.id := by
      intro q
      by_cases hc : pendingWithId id q = true <;> simp [hc]
    rw [hres, statusOf, getRequestByID,
      show (claimUpdate db id).requests = db.requests.map
        (fun q => if pendingWithId id q
          then { q with status := Status.claimed } else q) from rfl,
      find?_map_id_comm id _ hg, find?_id_eq_some_of_unique hu hr hid]
    simp [(pendingWithId_iff id r).mpr ⟨hid, hst⟩]

/-- Concrete database used by the claim C1 witness: one entity, one
PENDING request. -/
def dbC1 : Db :=
  { entities := ["E1"]
    requests := [{ id := "R1", createdBy := "client", entityId := "E1",
                   status := .pending, schemaKind := .jsonexample,
                   schemaPayload := .obj .nil, flowId := none }]
    responses := [] }

/-- Witness for claim C1 at a concrete database. -/
theorem claim_C1_atMostOneClaim_witness :
    ((ClaimRequest dbC1 "R1").2 = true ↔ statusOf dbC1 "R1" = some .pending)
    ∧ (runClaims "R1" 10 dbC1).2 ≤ 1 := by
  have h := claim_C1_atMostOneClaim dbC1 "R1"
    (by simp [RequestsUnique, dbC1])
  exact ⟨h.1, h.2.2.2 10⟩

/-- Concrete database used for claim C2: a CANCELLED request and an
EXPIRED request, target entity present, no responses yet. -/
def dbC2 : Db :=
  { entities := ["E1"]
    requests :=
      [{ id := "RC", createdBy := "client", entityId := "E1",
         status := .cancelled, schemaKind := .jsonexample,
         schemaPayload := .obj .nil, flowId := none },
       { id := "RX", createdBy := "client", entityId := "E1",
         status := .expired, schemaKind := .jsonexample,
         schemaPayload := .obj .nil, flowId := none }]
    responses := [] }

/-- Claim C2 evaluated at its failing input. The claim says postResponse
on a terminal request fails with invalid-transition and has no side
effects. The embedded RequestService.PostResponse has no status check at
all: on the CANCELLED request RC (and the EXPIRED request RX) it returns
success, inserts a Response row, and sets the status to ANSWERED. -/
theorem claim_C2_terminal_postResponse_succeeds :
    ((PostResponse (fun _ _ _ => false) (fun _ => none) "RESP1"
        dbC2 "RC" "E1" (.obj .nil) []).2.2 =
      .ok { id := "RESP1", requestId := "RC", answeredBy := "E1",
            payload := .obj .nil })
  ∧ statusOf (PostResponse (fun _ _ _ => false) (fun _ => none) "RESP1"
        dbC2 "RC" "E1" (.obj .nil) []).1 "RC" = some .answered
  ∧ (PostResponse (fun _ _ _ => false) (fun _ => none) "RESP1"
        dbC2 "RC" "E1" (.obj .nil) []).1.responses.length = 1
  ∧ statusOf (PostResponse (fun _ _ _ => false) (fun _ => none) "RESP1"
        dbC2 "RX" "E1" (.obj .nil) []).1 "RX" = some .answered := by
  refine ⟨rfl, by decide, by decide, by decide⟩

/-- Claim C3. When the request exists, its schema kind is one that
validates (jsonschema or ref), the responder entity resolves and exists,
and the payload fails validation against the compiled schema, then
PostResponse returns the schema-violation error, performs no writes (the
returned state is the input state, so the request status is unchanged and
no Response row is created), and publishes nothing. -/
theorem claim_C3_schemaViolation_no_writes
    (validate : SchemaKind → JsonVal → JsonVal → Bool)
    (normalizeFiles : List JsonObj → Option (List JsonObj))
    (freshRespId : String) (db : Db) (requestID answeredBy : String)
    (payload : JsonVal) (files : List JsonObj) (req : ReqRow)
    (hreq : getRequestByID db requestID = some req)
    (hkind : req.schemaKind = .jsonschema ∨ req.schemaKind = .ref)
    (hval : validate req.schemaKind req.schemaPayload payload = false)
    (hent : entityExists db
      (if answeredBy == "" then req.entityId else answeredBy) = true) :
    PostResponse validate normalizeFiles freshRespId db requestID answeredBy
      payload files = (db, [], .error .schemaViolation) := by
  have hg : (req.schemaKind == SchemaKind.jsonschema
      || req.schemaKind == SchemaKind.ref) = true := by
    rcases hkind with h | h <;> simp [h]
  unfold PostResponse
  rw [hreq]
  simp only [beq_iff_eq] at hent
  simp [hent, hg, hval]

/-- Concrete database used by the claim C3 witness: one CLAIMED request
with an inline schema. -/
def dbC3 : Db :=
  { entities := ["E1"]
    requests := [{ id := "R1", createdBy := "client", entityId := "E1",
                   status := .claimed, schemaKind := .jsonschema,
                   schemaPayload := .obj .nil, flowId := none }]
    responses := [] }

/-- Witness for claim C3: a validation that rejects the payload makes
PostResponse fail with schema-violation and leave the state untouched. -/
theorem claim_C3_schemaViolation_no_writes_witness :
    PostResponse (fun _ _ _ => false) (fun _ => some []) "RESP1" dbC3 "R1"
      "E1" (.obj .nil) [] = (dbC3, [], .error .schemaViolation) :=
  claim_C3_schemaViolation_no_writes (fun _ _ _ => false) (fun _ => some [])
    "RESP1" dbC3 "R1" "E1" (.obj .nil) []
    { id := "R1", createdBy := "client", entityId := "E1",
      status := .claimed, schemaKind := .jsonschema,
      schemaPayload := .obj .nil, flowId := none }
    (by decide) (Or.inl rfl) rfl (by decide)

/-! Flow service (internal/service/flow.go) and its runner contract
(internal/service/flow_runner.go). The runner is an interface value; it
enters the embedding as a function parameter. -/

/-- A row of the flows table, with the columns the claims touch. -/
structure FlowRow where
  id : String
  kind : String
  ownerEntity : String
  status : FlowStatus
  cursor : JsonObj
deriving Repr, DecidableEq

/-- Embeds service.StepResult: an optional replacement cursor, an
optional suspend descriptor (its fields are unused by the engine paths
verified here, only its presence matters), a done flag and an optional
error. -/
structure StepResult where
  cursor : Option JsonObj
  suspend : Option Unit
  done : Bool
  err : Option String
deriving Repr, DecidableEq

/-- The whole state the flow service touches: the flows table plus the
request-service state (for the cancellation cascade of claim C4). -/
structure World where
  db : Db
  flows : List FlowRow
deriving Repr, DecidableEq

/-- Embeds Queries.GetFlowByID. -/
def getFlowByID (w : World) (id : String) : Option FlowRow :=
  w.flows.find? (fun f => f.id == id)

/-- The status of the flow row with the given id. -/
def flowStatusOf (w : World) (id : String) : Option FlowStatus :=
  (getFlowByID w id).map (fun f => f.status)

/-- Embeds Queries.UpdateFlowStatus: unconditional status column update. -/
def updateFlowStatus (w : World) (id : String) (st : FlowStatus) : World :=
  { w with flows := (w.flows.map
      (fun f => if f.id == id then { f with status := st } else f)) }

/-- Embeds Queries.UpdateFlowCursor: unconditional cursor column update. -/
def updateFlowCursor (w : World) (id : String) (c : JsonObj) : World :=
  { w with flows := (w.flows.map
      (fun f => if f.id == id then { f with cursor := c } else f)) }

/-- The shared tail of ResumeFlow and TickFlow: persist the result cursor
when present, then interpret the runner result (suspend, then done, then
error, else leave the flow as it stands and emit flow.updated in the
resume path only, signalled by emitUpdated). -/
def applyStepResult (w : World) (flowID ownerEntity : String)
    (result : StepResult) (emitUpdated : Bool) :
    World × List Action × Option String :=
  let w1 := match result.cursor with
    | some c => updateFlowCursor w flowID c
    | none => w
  if result.suspend.isSome then
    (updateFlowStatus w1 flowID .suspended,
     [.publishEntity ownerEntity "flow.suspended"], none)
  else if result.done then
    (updateFlowStatus w1 flowID .completed,
     [.publishEntity ownerEntity "flow.completed"], none)
  else
    match result.err with
    | some e =>
        (updateFlowStatus w1 flowID .failed,
         [.publishEntity ownerEntity "flow.failed"], some e)
    | none =>
        if emitUpdated then
          (w1, [.publishEntity ownerEntity "flow.updated"], none)
        else (w1, [], none)

/-- The in-memory flow value ResumeFlow hands to the runner: the loaded
row with lastEvent written into its cursor (the status field still holds
the value as read). -/
def resumeFlowModel (f : FlowRow) (event : String) (data : JsonVal) : FlowRow :=
  { f with cursor := (setField f.cursor "lastEvent"
      (.obj (.cons "type" (.str event) (.cons "data" data .nil)))) }

/-- Embeds FlowService.ResumeFlow: load the flow, write lastEvent into
the cursor, persist the cursor, set the status to RUNNING (with no check
of the current status), invoke the runner on the in-memory flow value,
and interpret the result. -/
def ResumeFlow (runner : FlowRow → StepResult) (w : World)
    (flowID event : String) (data : JsonVal) :
    World × List Action × Option String :=
  match getFlowByID w flowID with
  | none => (w, [], some "flow not found")
  | some flow =>
    let flowModel := resumeFlowModel flow event data
    let w1 := updateFlowCursor w flowID flowModel.cursor
    let w2 := updateFlowStatus w1 flowID .running
    let result := runner flowModel
    applyStepResult w2 flowID flow.ownerEntity result true

/-- Embeds FlowService.TickFlow: load the flow, return unchanged unless
the status is RUNNING or SUSPENDED, invoke the runner, and interpret the
result (with no flow.updated event in the final branch). -/
def TickFlow (runner : FlowRow → StepResult) (w : World) (flowID : String) :
    World × List Action × Option String :=
  match getFlowByID w flowID with
  | none => (w, [], some "flow not found")
  | some flow =>
    if flow.status != .running && flow.status != .suspended then (w, [], none)
    else
      let result := runner flow
      applyStepResult w flowID flow.ownerEntity result false

/-- Embeds FlowService.CancelFlow: load the flow, set the status to
CANCELLED (with no check of the current status), and publish flow.updated.
The source has only a TODO comment where the cancellation of the open
requests owned by the flow would be; no request is touched. -/
def CancelFlow (w : World) (flowID : String) :
    World × List Action × Option String :=
  match getFlowByID w flowID with
  | none => (w, [], some "flow not found")
  | some flow =>
    let w1 := updateFlowStatus w flowID .cancelled
    (w1, [.publishEntity flow.ownerEntity "flow.updated"], none)

/-- Concrete world used for claim C4: a RUNNING flow F1 owning the
PENDING request R1 through its flow_id column. -/
def worldC4 : World :=
  { db := { entities := ["E1"]
            requests := [{ id := "R1", createdBy := "client",
                           entityId := "E1", status := .pending,
                           schemaKind := .jsonexample,
                           schemaPayload := .obj .nil,
                           flowId := some "F1" }]
            responses := [] }
    flows := [{ id := "F1", kind := "basic", ownerEntity := "E1",
                status := .running, cursor := .nil }] }

/-- Claim C4 evaluated at its failing input. The claim says cancelling a
flow also cancels every non-terminal request whose flow_id references it.
The embedded FlowService.CancelFlow (whose source holds only a TODO
comment at that point) sets the flow to CANCELLED and publishes
flow.updated, but leaves the flow-bound request R1 PENDING. -/
theorem claim_C4_cancelFlow_skips_requests :
    flowStatusOf (CancelFlow worldC4 "F1").1 "F1" = some .cancelled
  ∧ statusOf (CancelFlow worldC4 "F1").1.db "R1" = some .pending := by
  decide

/-- Concrete database used for claim C5: a PENDING request bound to flow
F1. -/
def dbC5 : Db :=
  { entities := ["E1"]
    requests := [{ id := "R1", createdBy := "client", entityId := "E1",
                   status := .pending, schemaKind := .jsonexample,
                   schemaPayload := .obj .nil, flowId := some "F1" }]
    responses := [] }

/-- Claim C5 evaluated at its failing input. The claim says any
cancellation of a flow-bound request resumes the owning flow with
request.cancelled. Both embedded cancellation paths
(RequestService.CancelRequest and JobServer.handleAutoCancel) transition
the request to CANCELLED and publish the request.cancelled events but
perform no flow resumption: the exact action lists contain no
resumeFlowWith action. -/
theorem claim_C5_cancel_never_resumes_flow :
    statusOf (ServiceCancelRequest dbC5 "R1").1 "R1" = some .cancelled
  ∧ (ServiceCancelRequest dbC5 "R1").2.1 =
      [.publishRequest "R1" "request.cancelled",
       .publishEntity "E1" "request.cancelled"]
  ∧ statusOf (handleAutoCancel dbC5 "R1").1 "R1" = some .cancelled
  ∧ (handleAutoCancel dbC5 "R1").2.1 =
      [.publishRequest "R1" "request.cancelled",
       .publishEntity "E1" "request.cancelled"] := by
  decide

/-- A runner whose step keeps the cursor and neither suspends, completes,
nor fails; the engine then leaves the flow RUNNING. -/
def runnerNoop : FlowRow → StepResult :=
  fun f => { cursor := some f.cursor, suspend := none, done := false,
             err := none }

/-- Concrete world used for claim C6: one COMPLETED (terminal) flow. -/
def worldC6 : World :=
  { db := { entities := [], requests := [], responses := [] }
    flows := [{ id := "F1", kind := "basic", ownerEntity := "E1",
                status := .completed, cursor := .nil }] }

/-- Counterexample to claim C6 as stated: the terminal statuses are not
sinks for every public flow operation. On the COMPLETED flow F1, resume
sets the status back to RUNNING (FlowService.ResumeFlow updates the
status with no terminal check before invoking the runner), and cancel
sets it to CANCELLED. -/
theorem claim_C6_counterexample :
    flowStatusOf worldC6 "F1" = some .completed
  ∧ flowStatusOf (ResumeFlow runnerNoop worldC6 "F1"
      "request.answered" .null).1 "F1" = some .running
  ∧ flowStatusOf (CancelFlow worldC6 "F1").1 "F1" = some .cancelled := by
  decide

theorem flowFind?_map_id_comm (id : String) (g : FlowRow → FlowRow)
    (hg : ∀ f, (g f).id = f.id) (l : List FlowRow) :
    (l.map g).find? (fun f => f.id == id) =
      (l.find? (fun f => f.id == id)).map g := by
  induction l with
  | nil => rfl
  | cons a t ih =>
      by_cases ha : a.id = id
      · simp [List.find?, hg, ha]
      · simp only [List.map_cons, List.find?]
        rw [show (((g a).id == id) = false) by simp [hg, ha],
            show ((a.id == id) = false) by simp [ha]]
        exact ih

theorem flowStatusOf_updateFlowStatus (w : World) (id : String)
    (st : FlowStatus) (hf : (getFlowByID w id).isSome = true) :
    flowStatusOf (updateFlowStatus w id st) id = some st := by
  have hg : ∀ q : FlowRow, ((fun q => if q.id == id
      then { q with status := st } else q) q).id = q.id := by
    intro q
    by_cases hc : (q.id == id) = true <;> simp [hc]
  rw [flowStatusOf, getFlowByID,
    show (updateFlowStatus w id st).flows = w.flows.map
      (fun q => if q.id == id then { q with status := st } else q) from rfl,
    flowFind?_map_id_comm id _ hg]
  rcases Option.isSome_iff_exists.mp hf with ⟨f, hsome⟩
  rw [getFlowByID] at hsome
  rw [hsome]
  have hfid : f.id = id := by simpa using List.find?_some hsome
  simp [hfid]

theorem flowStatusOf_updateFlowCursor (w : World) (id : String)
    (c : JsonObj) :
    flowStatusOf (updateFlowCursor w id c) id = flowStatusOf w id := by
  have hg : ∀ q : FlowRow, ((fun q => if q.id == id
      then { q with cursor := c } else q) q).id = q.id := by
    intro q
    by_cases hc : (q.id == id) = true <;> simp [hc]
  rw [flowStatusOf, getFlowByID,
    show (updateFlowCursor w id c).flows = w.flows.map
      (fun q => if q.id == id then { q with cursor := c } else q) from rfl,
    flowFind?_map_id_comm id _ hg, flowStatusOf, getFlowByID]
  cases hsome : w.flows.find? (fun q => q.id == id) with
  | none => rfl
  | some f =>
      by_cases hc : f.id = id <;> simp [hc]

theorem getFlowByID_updateFlowCursor_isSome (w : World) (id : String)
    (c : JsonObj) :
    (getFlowByID (updateFlowCursor w id c) id).isSome =
      (getFlowByID w id).isSome := by
  have hg : ∀ q : FlowRow, ((fun q => if q.id == id
      then { q with cursor := c } else q) q).id = q.id := by
    intro q
    by_cases hc : (q.id == id) = true <;> simp [hc]
  rw [getFlowByID,
    show (updateFlowCursor w id c).flows = w.flows.map
      (fun q => if q.id == id then { q with cursor := c } else q) from rfl,
    flowFind?_map_id_comm id _ hg, getFlowByID]
  cases w.flows.find? (fun q => q.id == id) <;> rfl

/-- Claim C6 as amended. COMPLETED, CANCELLED and FAILED are sinks for
tick only: TickFlow returns with the world unchanged on a terminal flow.
They are not sinks for resume and cancel: ResumeFlow on any existing flow
sets the status to RUNNING before invoking the runner, and the flow stays
RUNNING when the runner result neither suspends, completes nor fails; and
CancelFlow sets any existing flow to CANCELLED. -/
theorem claim_C6_terminal_sinks_amended (runner : FlowRow → StepResult)
    (w : World) (flowID : String) (f : FlowRow)
    (hf : getFlowByID w flowID = some f) :
    (f.status.isTerminal = true → TickFlow runner w flowID = (w, [], none))
  ∧ (∀ event data,
      (runner (resumeFlowModel f event data)).suspend = none →
      (runner (resumeFlowModel f event data)).done = false →
      (runner (resumeFlowModel f event data)).err = none →
      flowStatusOf (ResumeFlow runner w flowID event data).1 flowID
        = some .running)
  ∧ flowStatusOf (CancelFlow w flowID).1 flowID = some .cancelled := by
  refine ⟨?_, ?_, ?_⟩
  · intro hterm
    unfold TickFlow
    rw [hf]
    have hguard : (f.status != FlowStatus.running
        && f.status != FlowStatus.suspended) = true := by
      cases hst : f.status <;>
        simp [FlowStatus.isTerminal, hst] at hterm ⊢
    simp [hguard]
  · intro event data hs hd he
    unfold ResumeFlow
    rw [hf]
    simp only
    unfold applyStepResult
    rw [hs, hd, he]
    simp only [Option.isSome_none, Bool.false_eq_true, if_false, if_true]
    cases hrc : (runner (resumeFlowModel f event data)).cursor with
    | some c =>
        rw [flowStatusOf_updateFlowCursor]
        rw [flowStatusOf_updateFlowStatus]
        rw [getFlowByID_updateFlowCursor_isSome, hf]
        rfl
    | none =>
        rw [flowStatusOf_updateFlowStatus]
        rw [getFlowByID_updateFlowCursor_isSome, hf]
        rfl
  · unfold CancelFlow
    rw [hf]
    simp only
    rw [flowStatusOf_updateFlowStatus]
    rw [hf]
    rfl

/-- Witness for the amended claim C6 at a concrete world, runner and
flow. -/
theorem claim_C6_terminal_sinks_amended_witness :
    TickFlow runnerNoop worldC6 "F1" = (worldC6, [], none)
  ∧ flowStatusOf (ResumeFlow runnerNoop worldC6 "F1" "e" .null).1 "F1"
      = some .running
  ∧ flowStatusOf (CancelFlow worldC6 "F1").1 "F1" = some .cancelled := by
  have h := claim_C6_terminal_sinks_amended runnerNoop worldC6 "F1"
    { id := "F1", kind := "basic", ownerEntity := "E1",
      status := .completed, cursor := .nil } (by decide)
  exact ⟨h.1 (by decide), h.2.1 "e" .null rfl rfl rfl, h.2.2⟩

/-! Event streams (internal/pubsub/streams.go and Hub.Resume of the ws
package). Redis is external: the per-channel counter and the stream
entries are explicit state; the auto-generated XAdd entry ID that Redis
returns enters PublishEvent as the xaddMs and xaddSeq parameters, and the
wall clock as nowMs. Go int64 values are embedded as Int. -/

/-- The stored event record: channel, seq, timestamp and payload, as
PublishEvent marshals them into the stream entry. -/
structure StoredEvent where
  channel : String
  seq : Int
  timestampMs : Int
  payload : String
deriving Repr, DecidableEq

/-- One Redis stream entry: the auto-generated entry ID (millisecond
part, per-millisecond sequence part) and the stored event data. -/
structure StreamEntry where
  idMs : Int
  idSeq : Int
  data : StoredEvent
deriving Repr, DecidableEq

/-- The per-channel Redis state: the seq:channel counter INCR works on,
and the stream:channel entries in append order. -/
structure ChannelStream where
  counter : Int
  entries : List StreamEntry
deriving Repr, DecidableEq

/-- Strict order on stream entry IDs: Redis compares the millisecond
part, then the sequence part. -/
def idLt (ms1 s1 ms2 s2 : Int) : Bool :=
  ms1 < ms2 || (ms1 == ms2 && s1 < s2)

/-- Embeds Streams.PublishEvent. INCR on the channel counter yields the
next seq; the event record is stored with that seq; then parseStreamID
reads the sequence part of the XAdd auto ID and, when it is positive, it
replaces the seq returned to the caller (the stored record keeps the
counter value). -/
def PublishEvent (nowMs xaddMs xaddSeq : Int) (st : ChannelStream)
    (channel payload : String) : ChannelStream × Int :=
  let seq := st.counter + 1
  let stored : StoredEvent :=
    { channel := channel, seq := seq, timestampMs := nowMs, payload := payload }
  let st1 : ChannelStream :=
    { counter := seq,
      entries := (st.entries ++ [{ idMs := xaddMs, idSeq := xaddSeq, data := stored }]) }
  let seqFromID := xaddSeq
  let ret := if seqFromID > 0 then seqFromID else seq
  (st1, ret)

/-- Sequential publishes on one channel from a list of XAdd IDs and
payloads; returns the final state and the seqs returned to the
publishers. -/
def runPublishes (nowMs : Int) (channel : String) :
    List (Int × Int × String) → ChannelStream → ChannelStream × List Int
  | [], st => (st, [])
  | x :: rest, st =>
      let step := PublishEvent nowMs x.1 x.2.1 st channel x.2.2
      let restRun := runPublishes nowMs channel rest step.1
      (restRun.1, step.2 :: restRun.2)

/-- The seqs attached to the stored event records, in stream order. -/
def storedSeqs (st : ChannelStream) : List Int :=
  st.entries.map (fun e => e.data.seq)

/-- Consecutive integers starting at a. -/
def consecFrom (a : Int) : Nat → List Int
  | 0 => []
  | n + 1 => a :: consecFrom (a + 1) n

/-- The per-entry view ReplayEvents returns. -/
structure StreamEvent where
  channel : String
  sequence : Int
deriving Repr, DecidableEq

/-- Embeds redis XRead on one stream: the entries with ID strictly
greater than the start ID, in stream order, at most count of them when
count is positive. -/
def xread (entries : List StreamEntry) (startMs startSeq count : Int) :
    List StreamEntry :=
  let es := entries.filter (fun e => idLt startMs startSeq e.idMs e.idSeq)
  if count > 0 then es.take count.toNat else es

/-- Embeds Streams.ReplayEvents: the start ID is built from the wall
clock minus 24 hours as the millisecond part and sinceSeq as the
sequence part (the approximate conversion of the source); the stored
channel and seq of each read entry are returned. -/
def ReplayEvents (nowMs : Int) (st : ChannelStream) (sinceSeq limit : Int) :
    List StreamEvent :=
  (xread st.entries (nowMs - 86400000) sinceSeq limit).map
    (fun e => { channel := e.data.channel, sequence := e.data.seq })

/-- Embeds Hub.Resume: ReplayEvents with a batch limit of 100, every
replayed event sent to the connection in order. -/
def HubResume (nowMs : Int) (st : ChannelStream) (sinceSeq : Int) :
    List StreamEvent :=
  ReplayEvents nowMs st sinceSeq 100

/-- Entry k of the concrete claim C8 stream: published at millisecond
172700000 (the same millisecond for all five, so Redis assigns entry IDs
172700000-0 .. 172700000-4), with stored seq k. -/
def entryC8 (k : Int) : StreamEntry :=
  { idMs := 172700000, idSeq := k - 1,
    data := { channel := "entity:E1", seq := k, timestampMs := 172700000,
              payload := "evt" } }

/-- Concrete stream for claim C8: five persisted events with seqs 1..5,
all published within the last 24 hours. -/
def streamC8 : ChannelStream :=
  { counter := 5
    entries := [entryC8 1, entryC8 2, entryC8 3, entryC8 4, entryC8 5] }

/-- Claim C8 evaluated at its failing input. The claim says resume
delivers exactly the events with seq greater than since and never one
with seq at most since. The embedded replay starts reading at the stream
ID built from (now minus 24 hours, since); every entry published in the
last 24 hours has a larger ID, so resume(since = 3) delivers seqs
1, 2, 3, 4, 5 — including events with seq at most 3. -/
theorem claim_C8_resume_redelivers_old_events :
    (HubResume 172800000 streamC8 3).map (fun e => e.sequence)
      = [1, 2, 3, 4, 5]
  ∧ ∃ e ∈ HubResume 172800000 streamC8 3, e.sequence ≤ 3 := by
  refine ⟨by decide, ?_⟩
  refine ⟨{ channel := "entity:E1", sequence := 1 }, by decide, by decide⟩

/-- Concrete channel state for the claim C9 counterexample: one event
already published (counter 1, stored seq 1) at millisecond 1000. -/
def entryC9 : StreamEntry :=
  { idMs := 1000, idSeq := 0,
    data := { channel := "entity:E1", seq := 1, timestampMs := 1000,
              payload := "request.created" } }

/-- Concrete channel state holding entryC9: counter 1, one stored
event. -/
def streamC9 : ChannelStream :=
  { counter := 1
    entries := [entryC9] }

/-- Counterexample to claim C9 as stated: the second publish lands in the
same millisecond, so Redis assigns the entry ID 1000-1; PublishEvent then
returns the ID sequence part 1 while the stored record carries the
counter seq 2 — the returned seq differs from the stored one. -/
theorem claim_C9_counterexample :
    (PublishEvent 1000 1000 1 streamC9 "entity:E1" "request.claimed").2 = 1
  ∧ storedSeqs (PublishEvent 1000 1000 1 streamC9 "entity:E1"
      "request.claimed").1 = [1, 2] := by
  decide

theorem runPublishes_storedSeqs (nowMs : Int) (channel : String)
    (l : List (Int × Int × String)) (st : ChannelStream) :
    storedSeqs (runPublishes nowMs channel l st).1
      = storedSeqs st ++ consecFrom (st.counter + 1) l.length
    ∧ (runPublishes nowMs channel l st).1.counter = st.counter + l.length := by
  induction l generalizing st with
  | nil => simp [runPublishes, consecFrom]
  | cons x rest ih =>
      have hstep : storedSeqs (PublishEvent nowMs x.1 x.2.1 st channel x.2.2).1
          = storedSeqs st ++ [st.counter + 1] := by
        simp [PublishEvent, storedSeqs]
      have hcnt : (PublishEvent nowMs x.1 x.2.1 st channel x.2.2).1.counter
          = st.counter + 1 := rfl
      rcases ih (PublishEvent nowMs x.1 x.2.1 st channel x.2.2).1 with ⟨h1, h2⟩
      constructor
      · show storedSeqs (runPublishes nowMs channel rest
            (PublishEvent nowMs x.1 x.2.1 st channel x.2.2).1).1 = _
        rw [h1, hstep, hcnt]
        simp [consecFrom, List.append_assoc]
      · show (runPublishes nowMs channel rest
            (PublishEvent nowMs x.1 x.2.1 st channel x.2.2).1).1.counter = _
        rw [h2, hcnt]
        simp only [List.length_cons]
        push_cast
        ring

/-- Claim C9 as amended. The stored event records of a channel carry the
counter seqs: starting from a fresh channel, n publishes store exactly
the seqs 1..n (strictly increasing, no gaps), so the n-th successful
publish is assigned stored seq n. The seq returned to the publisher,
however, equals the stored seq only when the sequence part of the XAdd
auto ID is not positive; otherwise that ID part is returned instead. -/
theorem claim_C9_seq_monotonic_amended (nowMs : Int) (channel : String) :
    (∀ l : List (Int × Int × String),
      storedSeqs (runPublishes nowMs channel l
        { counter := 0, entries := [] }).1 = consecFrom 1 l.length)
  ∧ (∀ st xaddMs xaddSeq payload,
      storedSeqs (PublishEvent nowMs xaddMs xaddSeq st channel payload).1
        = storedSeqs st ++ [st.counter + 1]
      ∧ (PublishEvent nowMs xaddMs xaddSeq st channel payload).2
        = (if 0 < xaddSeq then xaddSeq else st.counter + 1)) := by
  constructor
  · intro l
    have h := (runPublishes_storedSeqs nowMs channel l
      { counter := 0, entries := [] }).1
    simpa [storedSeqs] using h
  · intro st xaddMs xaddSeq payload
    constructor
    · simp [PublishEvent, storedSeqs]
    · simp [PublishEvent]

/-- Witness for the amended claim C9 at three concrete publishes. -/
theorem claim_C9_seq_monotonic_amended_witness :
    storedSeqs (runPublishes 1000 "entity:E1"
      [(1000, 0, "a"), (1000, 1, "b"), (1001, 0, "c")]
      { counter := 0, entries := [] }).1 = [1, 2, 3] := by
  have h := (claim_C9_seq_monotonic_amended 1000 "entity:E1").1
    [(1000, 0, "a"), (1000, 1, "b"), (1001, 0, "c")]
  simpa [consecFrom] using h

/-- Claim C10. The schema kind is decided by top-level keys only, with
the "$ref" key taking precedence over "example" (remote-reference, called
ref in the code, wins even when both are present); otherwise a top-level
"example" key gives json-example (jsonexample), whose responses are never
rejected by schema validation (PostResponse skips validation for that
kind); otherwise the document is inline-schema (jsonschema) and creation
succeeds only when the Prepare gate accepts the document, while a
json-example document is inserted with no compile gate at all. -/
theorem claim_C10_schema_kind_detection (schema : JsonObj) :
    (hasField schema "$ref" = true → detectSchemaKind schema = .ref)
  ∧ (hasField schema "$ref" = false → hasField schema "example" = true →
      detectSchemaKind schema = .jsonexample)
  ∧ (hasField schema "$ref" = false → hasField schema "example" = false →
      detectSchemaKind schema = .jsonschema)
  ∧ (∀ validate normalizeFiles freshRespId db requestID answeredBy payload
        files req,
      getRequestByID db requestID = some req →
      req.schemaKind = SchemaKind.jsonexample →
      (PostResponse validate normalizeFiles freshRespId db requestID
        answeredBy payload files).2.2 ≠ .error .schemaViolation)
  ∧ (∀ prepGate freshId db eid createdBy,
      detectSchemaKind schema ≠ .jsonexample →
      ((∃ row, (CreateRequest prepGate freshId db (some eid) createdBy
          schema).2 = .ok row) ↔ prepGate (.obj schema) = .ok))
  ∧ (∀ prepGate freshId db eid createdBy,
      detectSchemaKind schema = .jsonexample →
      ∃ row, (CreateRequest prepGate freshId db (some eid) createdBy
        schema).2 = .ok row) := by
  refine ⟨?_, ?_, ?_, ?_, ?_, ?_⟩
  · intro h
    simp [detectSchemaKind, h]
  · intro h1 h2
    simp [detectSchemaKind, h1, h2]
  · intro h1 h2
    simp [detectSchemaKind, h1, h2]
  · intro validate normalizeFiles freshRespId db requestID answeredBy
      payload files req hreq hkind
    unfold PostResponse
    rw [hreq]
    have hguard : ((req.schemaKind == SchemaKind.jsonschema
        || req.schemaKind == SchemaKind.ref)
        && !(validate req.schemaKind req.schemaPayload payload)) = false := by
      simp [hkind]
    simp only [hguard, Bool.false_eq_true, if_false]
    by_cases hent : entityExists db
        (if answeredBy == "" then req.entityId else answeredBy) = true
    · simp only [hent, Bool.not_true, Bool.false_eq_true, if_false]
      cases hfn : (if files.isEmpty then some ([] : List JsonObj)
          else normalizeFiles files) with
      | none => simp [hfn]
      | some fs => simp [hfn]
    · rw [Bool.not_eq_true] at hent
      simp only [beq_iff_eq] at hent
      simp [hent]
  · intro prepGate freshId db eid createdBy hk
    unfold CreateRequest
    by_cases hp : prepGate (.obj schema) = PrepareResult.ok
    · have hgate : ((detectSchemaKind schema == SchemaKind.jsonschema
          || detectSchemaKind schema == SchemaKind.ref)
          && !(prepGate (.obj schema) == PrepareResult.ok)) = false := by
        simp [hp]
      simp only [hgate, Bool.false_eq_true, if_false]
      exact ⟨fun _ => hp, fun _ => ⟨_, rfl⟩⟩
    · have hkd : (detectSchemaKind schema == SchemaKind.jsonschema
          || detectSchemaKind schema == SchemaKind.ref) = true := by
        cases hd : detectSchemaKind schema <;> simp_all
      have hgate : ((detectSchemaKind schema == SchemaKind.jsonschema
          || detectSchemaKind schema == SchemaKind.ref)
          && !(prepGate (.obj schema) == PrepareResult.ok)) = true := by
        simp [hkd, hp]
      simp only [hgate, if_true]
      constructor
      · rintro ⟨row, hrow⟩
        cases hrow
      · intro hok
        exact absurd hok hp
  · intro prepGate freshId db eid createdBy hk
    unfold CreateRequest
    have hgate : ((detectSchemaKind schema == SchemaKind.jsonschema
        || detectSchemaKind schema == SchemaKind.ref)
        && !(prepGate (.obj schema) == PrepareResult.ok)) = false := by
      simp [hk]
    simp only [hgate, Bool.false_eq_true, if_false]
    exact ⟨_, rfl⟩

/-- A schema document with both a top-level "$ref" and a top-level
"example" key. -/
def schemaRefAndExample : JsonObj :=
  .cons "$ref" (.str "https://schemas.example.com/person.json")
    (.cons "example" (.num 1) .nil)

/-- A schema document with a top-level "example" key only. -/
def schemaExampleOnly : JsonObj :=
  .cons "example" (.num 1) .nil

/-- A plain inline schema document. -/
def schemaInline : JsonObj :=
  .cons "type" (.str "object") .nil

/-- The empty database used by the claim C10 witness. -/
def dbEmpty : Db :=
  { entities := ["E1"], requests := [], responses := [] }

/-- Witness for claim C10 at concrete documents: the "$ref" key wins even
with "example" present; an example-only document is json-example and its
creation passes a rejecting Prepare gate; an inline document fails
creation under a rejecting Prepare gate. -/
theorem claim_C10_schema_kind_detection_witness :
    detectSchemaKind schemaRefAndExample = .ref
  ∧ detectSchemaKind schemaExampleOnly = .jsonexample
  ∧ (∃ row, (CreateRequest (fun _ => PrepareResult.compileFailed) "R9"
      dbEmpty (some "E1") "client" schemaExampleOnly).2 = .ok row)
  ∧ ¬ (∃ row, (CreateRequest (fun _ => PrepareResult.compileFailed) "R9"
      dbEmpty (some "E1") "client" schemaInline).2 = .ok row) := by
  have h1 := claim_C10_schema_kind_detection schemaRefAndExample
  have h2 := claim_C10_schema_kind_detection schemaExampleOnly
  have h3 := claim_C10_schema_kind_detection schemaInline
  refine ⟨h1.1 (by decide), h2.2.1 (by decide) (by decide), ?_, ?_⟩
  · exact h2.2.2.2.2.2 (fun _ => PrepareResult.compileFailed) "R9" dbEmpty
      "E1" "client" (h2.2.1 (by decide) (by decide))
  · intro hex
    have := (h3.2.2.2.2.1 (fun _ => PrepareResult.compileFailed) "R9" dbEmpty
      "E1" "client" (by decide)).mp hex
    cases this

end PxBox
